import Mathlib

/-!
Verification of the DevConnect real-time matchmaking and WebRTC signaling
service against its natural-language specification.

The development contains three shallow embeddings, mirroring the three
implementations present in the repository:

* namespace `Backend` — the Socket.IO backend (`src/backend/src/index.ts`):
  session hashes, per-(mode, connectionType) Redis list queues, match records,
  `findMatch`, `addToQueue`, `removeFromQueue`, `destroyMatch`,
  `handleJoinQueue`, `handleLeave`, `handleSignal`, and the `/api/stats`
  endpoint.  Redis is modelled as the sequential state `Backend.St`; every
  await-ed Redis call of the source becomes a pure state transformation,
  executed in program order.  Values the source draws from the environment
  (`Date.now()`, generated match identifiers, socket identifiers) are
  explicit parameters.

* namespace `QM` — the Next.js queue manager and socket gateway
  (`src/lib/queue-manager.ts`, `src/pages/api/socket/io.ts`): `joinQueue`,
  `removeFromQueue`, `leaveRoom` and the gateway's disconnect handler.

* namespace `Api` — the serverless API routes and the in-memory
  fixed-window rate limiter (`src/lib/rate-limiter` revision used by the
  routes, `src/app/api/session/init/route.ts`, the reports route).
-/

namespace Backend

/-- Session hash `session:<sessionId>` (`src/backend/src/index.ts`).
`hGetAll` on a missing key yields an empty hash, whose string fields read as
`""`; the record's defaults model exactly that. -/
structure SessRec where
  socketId : String := ""
  mode : String := ""
  connectionType : String := ""
  timestamp : Nat := 0
  inQueue : Bool := false
  matchId : Option String := none
  peerId : Option String := none
deriving DecidableEq

instance : Inhabited SessRec := ⟨{}⟩

/-- Match hash `match:<matchId>` (interface `Match` of `index.ts`, minus the
identifier, which is carried by the key). -/
structure MatchRec where
  participants : List String
  mode : String
  connectionType : String
  initiatorId : String
  createdAt : Nat
deriving DecidableEq

/-- The sequential Redis + process state of the backend instance. -/
structure St where
  sessions : String → Option SessRec
  queues : String → String → List String
  matchTable : List (String × MatchRec)
  onlineCount : Nat
  totalConnections : Nat
  todayConnections : Nat

/-- Events the backend emits to client sockets. -/
inductive Emit
  | matchedE (toSocket roomId peerId : String) (isInitiator : Bool)
  | peerLeftE (toSocket : String)
  | signalE (toSocket : String) (payloadSize : Nat) (fromId : String)
deriving DecidableEq

/-- Read `hGetAll(session:<sid>)`: a missing key reads as the all-empty hash. -/
def getSess (st : St) (sid : String) : SessRec :=
  (st.sessions sid).getD {}

/-- Write `hSet(session:<sid>, fields)`: creates the hash when absent, then merges
the written fields into it. -/
def updSess (st : St) (sid : String) (f : SessRec → SessRec) : St :=
  { st with sessions := fun k => if k = sid then some (f (getSess st sid)) else st.sessions k }

/-- Write one queue list back (the Redis list `queue:<mode>:<type>`). -/
def updQueue (mode ctype : String) (q : List String) (st : St) : St :=
  { st with queues := fun m t => if m = mode ∧ t = ctype then q else st.queues m t }

/-- The `modeMatchPairs` lookup with fallback to the caller's own mode
(`const targetMode = modeMatchPairs[mode] || mode`). -/
def pairMode (mode : String) : String :=
  if mode = "hire" then "freelance"
  else if mode = "freelance" then "hire"
  else mode

/-- Embeds `addToQueue(entry)`: stores the entry fields into the session hash and
right-pushes the session onto its own queue. -/
def addToQueue (sid sock mode ctype : String) (now : Nat) (st : St) : St :=
  let st1 := updSess st sid fun r =>
    { r with socketId := sock, mode := mode, connectionType := ctype,
             timestamp := now, inQueue := true }
  updQueue mode ctype (st1.queues mode ctype ++ [sid]) st1

/-- Embeds `removeFromQueue(sessionId, mode, connectionType)`: `lRem(queue, 0, sid)`
removes every occurrence, then the session hash is marked not-in-queue. -/
def removeFromQueue (sid mode ctype : String) (st : St) : St :=
  let st1 := updQueue mode ctype ((st.queues mode ctype).filter (fun x => !(x == sid))) st
  updSess st1 sid fun r => { r with inQueue := false }

/-- One peer candidate of the `findMatch` scan is stale when its session hash
has no socket or is not flagged in-queue
(`!peerData.socketId || peerData.inQueue !== "true"`). -/
def staleInScan (sess : String → Option SessRec) (peer : String) : Bool :=
  let pd := (sess peer).getD {}
  pd.socketId == "" || !pd.inQueue

/-- The `while (i < queueLength && i < MAX_CHECKS)` scan of `findMatch`.
The fuel argument is initialised with the queue length; every iteration
either advances the index (keeping the queue) or shortens the queue
(keeping the index), so `queueLength - i` falls by one each step and fuel
`queueLength` never runs out before the source loop would exit on its own.
The result is the found peer (if any), the queue as left behind by the
`lRem` calls, and the number of queue entries the loop inspected. -/
def findLoop (sess : String → Option SessRec) (self : String) :
    Nat → List String → Nat → Nat → Option String × List String × Nat
  | 0, q, _, evals => (none, q, evals)
  | fuel + 1, q, i, evals =>
    if h : i < q.length ∧ i < 50 then
      let peer := q.get ⟨i, h.1⟩
      if peer = self then
        findLoop sess self fuel q (i + 1) (evals + 1)
      else if staleInScan sess peer then
        findLoop sess self fuel (q.erase peer) i (evals + 1)
      else
        (some peer, q.erase peer, evals + 1)
    else
      (none, q, evals)

/-- Result of `findMatch`: the minted match (if any), the state after all
Redis writes, and how many queue entries the scan inspected. -/
structure FindRes where
  found : Option MatchRec
  st : St
  evals : Nat

/-- Embeds `findMatch(sessionId, mode, connectionType)` of `index.ts`: scans the
queue selected by the pairing rule, dropping stale entries, and on success
mints the match record (note: with `mode` set to the *target* mode, as the
source does) and rewires both session hashes.  `mid` models the generated
`match_<Date.now()>_<random>` identifier. -/
def findMatch (sid mode ctype mid : String) (now : Nat) (st : St) : FindRes :=
  let tm := pairMode mode
  let q := st.queues tm ctype
  match findLoop st.sessions sid q.length q 0 0 with
  | (none, q1, evals) =>
    { found := none, st := updQueue tm ctype q1 st, evals := evals }
  | (some peer, q1, evals) =>
    let mrec : MatchRec :=
      { participants := [peer, sid], mode := tm, connectionType := ctype,
        initiatorId := sid, createdAt := now }
    let st1 := updQueue tm ctype q1 st
    let st2 := { st1 with matchTable := (mid, mrec) :: st1.matchTable.filter (fun e => !(e.1 == mid)) }
    let st3 := updSess st2 sid fun r =>
      { r with matchId := some mid, peerId := some peer, inQueue := false }
    let st4 := updSess st3 peer fun r =>
      { r with matchId := some mid, peerId := some sid, inQueue := false }
    { found := some mrec, st := st4, evals := evals }

/-- Field clearing performed by `destroyMatch` on a participant's session
hash: `hDel(session:<p>, ["matchId", "peerId"])`. -/
def clearRoomFields (r : SessRec) : SessRec :=
  { r with matchId := none, peerId := none }

/-- The `session:<p>` update of `destroyMatch`: `hDel(matchId, peerId)` clears the
room mapping but, unlike `hSet`, does not create a missing hash. -/
def hDelMatchFields (st : St) (sid : String) : St :=
  { st with sessions := fun k =>
      if k = sid then (st.sessions sid).map clearRoomFields
      else st.sessions k }

/-- Embeds `destroyMatch(matchId)`: returns the prior participants, clears both
participants' room mappings and deletes the match record; a vanished match
yields the empty list and leaves the state untouched. -/
def destroyMatch (mid : String) (st : St) : List String × St :=
  match st.matchTable.lookup mid with
  | none => ([], st)
  | some mr =>
    let st1 := mr.participants.foldl hDelMatchFields st
    let st2 := { st1 with matchTable := st1.matchTable.filter (fun e => !(e.1 == mid)) }
    (mr.participants, st2)

/-- Acknowledgement returned to the `join-queue` caller. -/
inductive JoinResp
  | waiting
  | matchedR (roomId peerId : String) (isInitiator : Bool)
deriving DecidableEq

/-- Outcome of `handleJoinQueue`: callback value, state, emitted events. -/
structure JoinOut where
  resp : JoinResp
  st : St
  emits : List Emit

/-- Embeds `handleJoinQueue(socket, sessionId, data)`: tries `findMatch` first; on
success notifies the peer and bumps the connection counters, otherwise
appends the caller to its own queue. -/
def handleJoinQueue (sock sid mode ctype mid : String) (now : Nat) (st : St) : JoinOut :=
  let fr := findMatch sid mode ctype mid now st
  match fr.found with
  | some m =>
    let peer := (m.participants.find? (fun p => p != sid)).getD ""
    let pd := getSess fr.st peer
    { resp := .matchedR mid peer true,
      st := { fr.st with totalConnections := fr.st.totalConnections + 1,
                         todayConnections := fr.st.todayConnections + 1 },
      emits := [.matchedE pd.socketId mid sid false] }
  | none =>
    { resp := .waiting, st := addToQueue sid sock mode ctype now fr.st, emits := [] }

/-- Outcome of `handleLeave`: state and emitted events. -/
structure LeaveOut where
  st : St
  emits : List Emit

/-- Embeds `handleLeave(socket, sessionId, data)` of `index.ts`: drops the event when
it arrives from a socket that is no longer the session's current one;
otherwise destroys the current match, notifies and immediately rematches or
re-queues the abandoned peer, and finally withdraws the session from its
queue.  `rmid` models the match identifier a peer rematch would mint. -/
def handleLeave (sock sid rmid : String) (now : Nat) (st : St) : LeaveOut :=
  let sd := getSess st sid
  if sd.socketId ≠ "" ∧ sd.socketId ≠ sock then
    { st := st, emits := [] }
  else
    let step1 : LeaveOut :=
      match sd.matchId with
      | none => { st := st, emits := [] }
      | some mid =>
        let (parts, stD) := destroyMatch mid st
        match parts.find? (fun p => p != sid) with
        | none => { st := stD, emits := [] }
        | some peer =>
          let pd := getSess stD peer
          if pd.socketId = "" then { st := stD, emits := [] }
          else
            let peerMode := if pd.mode ≠ "" then pd.mode else sd.mode
            let peerType := if pd.connectionType ≠ "" then pd.connectionType else sd.connectionType
            let fr := findMatch peer peerMode peerType rmid now stD
            match fr.found with
            | some m =>
              let newPeer := (m.participants.find? (fun p => p != peer)).getD ""
              let npd := getSess fr.st newPeer
              { st := { fr.st with totalConnections := fr.st.totalConnections + 1,
                                   todayConnections := fr.st.todayConnections + 1 },
                emits := [.peerLeftE pd.socketId,
                          .matchedE pd.socketId rmid newPeer true,
                          .matchedE npd.socketId rmid peer false] }
            | none =>
              { st := addToQueue peer pd.socketId peerMode peerType now fr.st,
                emits := [.peerLeftE pd.socketId] }
    if sd.mode ≠ "" ∧ sd.connectionType ≠ "" ∧ sd.inQueue = true then
      { st := removeFromQueue sid sd.mode sd.connectionType step1.st, emits := step1.emits }
    else
      step1

/-- Embeds `handleSignal(socket, sessionId, data)`: drops the signal when the
source's session hash does not map to the given room, or when the target's
session hash holds no socket; otherwise emits it to the target's socket.
The payload is carried opaquely; only its byte size is modelled. -/
def handleSignal (sid roomId targetId : String) (payloadSize : Nat) (st : St) : Option Emit :=
  let sd := getSess st sid
  if sd.matchId ≠ some roomId then none
  else
    let td := getSess st targetId
    if td.socketId = "" then none
    else some (.signalE td.socketId payloadSize sid)

/-- Per-mode figures of the stats payload. -/
structure ByMode where
  casual : Nat
  pitch : Nat
  collab : Nat
  hire : Nat
  freelance : Nat
  review : Nat
deriving DecidableEq

/-- The `realtime` sub-object of the stats payload. -/
structure Realtime where
  activeRooms : Nat
  waitingByMode : ByMode
  totalWaiting : Nat
deriving DecidableEq

/-- Whole `/api/stats` payload. -/
structure StatsResp where
  online : Nat
  totalConnections : Nat
  todayConnections : Nat
  byMode : ByMode
  realtime : Realtime
deriving DecidableEq

/-- True total of waiters for one mode: `lLen(queue:<mode>:video) +
lLen(queue:<mode>:chat)`. -/
def queueTotal (st : St) (mode : String) : Nat :=
  (st.queues mode "video").length + (st.queues mode "chat").length

/-- The backend `/api/stats` endpoint (`app.get("/api/stats")`). -/
def statsGET (st : St) : StatsResp :=
  let qs : ByMode :=
    { casual := queueTotal st "casual", pitch := queueTotal st "pitch",
      collab := queueTotal st "collab", hire := queueTotal st "hire",
      freelance := queueTotal st "freelance", review := queueTotal st "review" }
  { online := st.onlineCount + 247,
    totalConnections := 2847293 + st.totalConnections,
    todayConnections := 12847 + st.todayConnections,
    byMode :=
      { casual := qs.casual + 50, pitch := qs.pitch + 25, collab := qs.collab + 35,
        hire := qs.hire + 15, freelance := qs.freelance + 20, review := qs.review + 30 },
    realtime :=
      { activeRooms := st.matchTable.length, waitingByMode := qs,
        totalWaiting := qs.casual + qs.pitch + qs.collab + qs.hire + qs.freelance + qs.review } }

/-- The `online` figure of the App-Router stats route
(`src/app/api/stats/route.ts`): the raw active-session count when positive,
the demo base 247 otherwise, plus `Math.floor(Math.random() * 20)`. -/
def appStatsOnline (activeSessions jitter : Nat) : Nat :=
  (if 0 < activeSessions then activeSessions else 247) + jitter

end Backend

namespace QM

/-- Intent modes occurring in the Next.js sources: the `AppMode` union of
`src/app/app/page.tsx` (casual, pitch, collab, hire, freelance, review)
together with `hiring`, which the queue manager's own mode lists use. -/
inductive ModeB
  | casual
  | pitch
  | collab
  | hiring
  | review
  | hire
  | freelance
deriving DecidableEq

/-- The `ConnectionType` union of `src/app/app/page.tsx`. -/
inductive CTypeB
  | video
  | chat
deriving DecidableEq

/-- One `queue:<mode>:<type>` key. -/
abbrev KeyB := ModeB × CTypeB

/-- Session record of `src/lib/session.ts` (fields not read by the queue
manager are omitted; `getSession` validity is presence in the store). -/
structure SessB where
  socketId : Option String := none
deriving DecidableEq

/-- The `Room` record of `src/lib/queue-manager.ts`. -/
structure RoomB where
  mode : ModeB
  ctype : CTypeB
  participants : List String
  initiatorId : String
  createdAt : Nat
deriving DecidableEq

/-- Redis state shared by the queue manager and the socket gateway. -/
structure StB where
  queues : KeyB → List String
  sessions : String → Option SessB
  rooms : String → Option RoomB
  sessionRoom : String → Option String

/-- The all-empty store. -/
def emptyB : StB :=
  { queues := fun _ => [], sessions := fun _ => none,
    rooms := fun _ => none, sessionRoom := fun _ => none }

/-- The queues `removeFromQueue` sweeps, in its iteration order: modes
`["casual", "pitch", "collab", "hiring", "review"]` (note: not `hire` or
`freelance`) crossed with `["video", "chat"]`. -/
def sweepKeys : List KeyB :=
  [(.casual, .video), (.casual, .chat), (.pitch, .video), (.pitch, .chat),
   (.collab, .video), (.collab, .chat), (.hiring, .video), (.hiring, .chat),
   (.review, .video), (.review, .chat)]

/-- The early-returning sweep of `removeFromQueue`: at the first queue whose
`lRem(queue, 0, sid)` deletes something (i.e. which contains the session),
remove every occurrence and stop. -/
def rfqGo (sid : String) : List KeyB → (KeyB → List String) → KeyB → List String
  | [], q => q
  | k :: rest, q =>
    if sid ∈ q k then
      fun k2 => if k2 = k then (q k).filter (fun x => !(x == sid)) else q k2
    else
      rfqGo sid rest q

/-- Embeds `removeFromQueue(sessionId)` of `src/lib/queue-manager.ts`. -/
def removeFromQueue (sid : String) (st : StB) : StB :=
  { st with queues := rfqGo sid sweepKeys st.queues }

/-- The `while (attempts < MAX_ATTEMPTS)` pop loop of `joinQueue`: left-pops
the caller's own queue; a popped self is skipped (without an attempt),
a popped peer with no session record counts as a failed attempt, a live
peer is the match.  Returns the winner (if any) and the remaining queue. -/
def joinLoop (sess : String → Option SessB) (self : String) :
    List String → Nat → Option String × List String
  | q, attempts =>
    if 3 ≤ attempts then (none, q)
    else
      match q with
      | [] => (none, [])
      | p :: rest =>
        if p = self then joinLoop sess self rest attempts
        else if (sess p).isNone then joinLoop sess self rest (attempts + 1)
        else (some p, rest)

/-- The `MatchResult` of `joinQueue`. -/
inductive MatchResB
  | waiting
  | matched (roomId peerId : String) (isInitiator : Bool)
deriving DecidableEq

/-- Embeds `joinQueue(sessionId, mode, type)` of `src/lib/queue-manager.ts`: first
removes the caller from any swept queue, then pops candidates from the
caller's own `(mode, type)` queue — no complementary-intent rule is applied
— and either mints a room with the first live candidate or appends the
caller to that same queue.  `rid` models the generated room identifier. -/
def joinQueue (sid : String) (m : ModeB) (t : CTypeB) (rid : String) (now : Nat)
    (st : StB) : MatchResB × StB :=
  let st1 := removeFromQueue sid st
  match joinLoop st1.sessions sid (st1.queues (m, t)) 0 with
  | (none, q1) =>
    (.waiting, { st1 with queues := fun k => if k = (m, t) then q1 ++ [sid] else st1.queues k })
  | (some peer, q1) =>
    let room : RoomB :=
      { mode := m, ctype := t, participants := [peer, sid],
        initiatorId := sid, createdAt := now }
    (.matched rid peer true,
     { st1 with
       queues := fun k => if k = (m, t) then q1 else st1.queues k,
       rooms := fun k => if k = rid then some room else st1.rooms k,
       sessionRoom := fun k =>
         if k = sid then some rid
         else if k = peer then some rid
         else st1.sessionRoom k })

/-- Embeds `leaveRoom(sessionId)` of `src/lib/queue-manager.ts`: resolves the
caller's room, deletes the room record and both participants' session→room
mappings, and returns the counterpart. -/
def leaveRoom (sid : String) (st : StB) : Option String × StB :=
  match st.sessionRoom sid with
  | none => (none, st)
  | some rid =>
    match st.rooms rid with
    | none =>
      (none, { st with sessionRoom := fun k => if k = sid then none else st.sessionRoom k })
    | some room =>
      let peer := room.participants.find? (fun p => p != sid)
      let st1 := { st with rooms := fun k => if k = rid then none else st.rooms k }
      let st2 := { st1 with sessionRoom := fun k =>
        if k ∈ room.participants then none else st1.sessionRoom k }
      (peer, st2)

/-- The `disconnect` handler of `src/pages/api/socket/io.ts`: it calls
`leaveRoom(sessionId)` unconditionally; the identifier of the socket the
event arrived on is ignored. -/
def ioDisconnect (_socketId : String) (sessionId : String) (st : StB) : StB :=
  (leaveRoom sessionId st).2

/-- Public operations of the queue manager, as the gateway invokes them. -/
inductive OpB
  | mkSession (sid : String)
  | join (sid rid : String) (m : ModeB) (t : CTypeB) (now : Nat)
  | withdraw (sid : String)
  | leave (sid : String)

/-- Effect of one operation on the store. -/
def stepB : OpB → StB → StB
  | .mkSession sid, st =>
    { st with sessions := fun k => if k = sid then some {} else st.sessions k }
  | .join sid rid m t now, st => (joinQueue sid m t rid now st).2
  | .withdraw sid, st => removeFromQueue sid st
  | .leave sid, st => (leaveRoom sid st).2

/-- Guard on operations: joins only for the intents that the withdraw sweep
of `removeFromQueue` covers. -/
def opOK : OpB → Prop
  | .join _ _ m t _ => (m, t) ∈ sweepKeys
  | _ => True

/-- States reachable from the empty store by guarded operations. -/
inductive ReachB : StB → Prop
  | init : ReachB emptyB
  | step (op : OpB) (st : StB) (hop : opOK op) (h : ReachB st) : ReachB (stepB op st)

end QM

namespace Api

/-- The `RateLimitEntry` of the in-memory fixed-window rate limiter
(`src/lib/rate-limiter`): request count and window end, in ms. -/
structure RLEntry where
  count : Nat
  resetAt : Nat
deriving DecidableEq

/-- The `RateLimitConfig` shape: window length in ms and maximum requests per window. -/
structure RLConfig where
  windowMs : Nat
  maxRequests : Nat
deriving DecidableEq

/-- Config `RATE_LIMITS.sessionInit`: 10 per minute. -/
def sessionInitLimit : RLConfig := { windowMs := 60000, maxRequests := 10 }

/-- Config `RATE_LIMITS.report`: 5 per hour. -/
def reportLimit : RLConfig := { windowMs := 3600000, maxRequests := 5 }

/-- Result of `checkRateLimit`. -/
structure RLResult where
  allowed : Bool
  remaining : Nat
  resetIn : Nat
deriving DecidableEq

/-- The window-reset step of `checkRateLimit`: a missing entry, or one whose
window has elapsed (`now > entry.resetAt`), restarts at count 0 with a fresh
window. -/
def rlWindowEntry (cfg : RLConfig) (e? : Option RLEntry) (now : Nat) : RLEntry :=
  match e? with
  | none => { count := 0, resetAt := now + cfg.windowMs }
  | some e => if e.resetAt < now then { count := 0, resetAt := now + cfg.windowMs } else e

/-- Embeds `checkRateLimit(identifier, config)`: bumps the window entry and admits
the request while the bumped count stays within the limit
(`allowed = entry.count <= config.maxRequests`). -/
def checkRateLimit (id : String) (now : Nat) (cfg : RLConfig)
    (m : String → Option RLEntry) : RLResult × (String → Option RLEntry) :=
  let e0 := rlWindowEntry cfg (m id) now
  let e : RLEntry := { count := e0.count + 1, resetAt := e0.resetAt }
  ({ allowed := decide (e.count ≤ cfg.maxRequests),
     remaining := cfg.maxRequests - e.count,
     resetIn := e.resetAt - now },
   fun k => if k = id then some e else m k)

/-- Session record created by `createSession` of `src/lib/session.ts`. -/
structure SessionC where
  sessionId : String
  socketId : Option String := none
  selectedMode : Option String := none
  createdAt : Nat
  lastSeen : Nat
  reportCount : Nat := 0
deriving DecidableEq

/-- Embeds `createSession()`: the freshly stored record. -/
def createSessionRec (sid : String) (now : Nat) : SessionC :=
  { sessionId := sid, createdAt := now, lastSeen := now }

/-- State visible to `POST /api/session/init`. -/
structure InitSt where
  rl : String → Option RLEntry
  sessions : List SessionC

/-- Response of `POST /api/session/init`. -/
inductive InitResp
  | ok (sessionId token : String) (expiresIn : Nat)
  | rateLimited (status : Nat)
deriving DecidableEq

/-- Embeds `POST /api/session/init` (`src/app/api/session/init/route.ts`): checks
the per-address `session-init:<ip>` limit; over the limit it answers 429 and
creates nothing, otherwise it creates a session record and returns the
identifier, the signed token and the 86400 s expiry.  `sid` and `tok` model
the generated identifier and token. -/
def sessionInitPOST (ip : String) (now : Nat) (sid tok : String) (st : InitSt) :
    InitResp × InitSt :=
  let r := checkRateLimit ("session-init:" ++ ip) now sessionInitLimit st.rl
  if r.1.allowed then
    (.ok sid tok 86400, { rl := r.2, sessions := st.sessions ++ [createSessionRec sid now] })
  else
    (.rateLimited 429, { rl := r.2, sessions := st.sessions })

/-- Stored report record of the reports route. -/
structure RepRec where
  id : String
  reporterSessionId : String
  reportedSessionId : String
  roomId : String
  reason : String
deriving DecidableEq

/-- State visible to `POST /api/reports`: the rate-limit table, the
`reported:<sessionId>` counters (`redis.incr`, 0 when absent), the session
store's `reportCount` fields, and the stored report list. -/
structure RepSt where
  rl : String → Option RLEntry
  counters : String → Nat
  sessCount : String → Option Nat
  reports : List RepRec

/-- Response of `POST /api/reports`. -/
inductive RepResp
  | ok (reportId : String) (shouldAutoDisconnect : Bool)
  | err (status : Nat)
deriving DecidableEq

/-- Embeds `incrementReportCount` of `src/lib/session.ts`: bumps the stored
session's counter; a missing session is left missing. -/
def incSessCount (m : String → Option Nat) (sid : String) : String → Option Nat :=
  fun k => if k = sid then (m sid).map (· + 1) else m k

/-- Embeds `POST /api/reports`: 401 without a reporter identity, 429 over the
5-per-hour limit, 400 on missing fields or self-report; an accepted report
is stored, bumps the target's 24-hour `reported:` counter atomically and
flags `shouldAutoDisconnect` once that counter reaches the threshold 3. -/
def reportsPOST (auth? bodyReporter? : Option String) (reported reason roomId : String)
    (now : Nat) (rid : String) (st : RepSt) : RepResp × RepSt :=
  match auth?.orElse (fun _ => bodyReporter?) with
  | none => (.err 401, st)
  | some reporter =>
    let r := checkRateLimit ("report:" ++ reporter) now reportLimit st.rl
    let st1 := { st with rl := r.2 }
    if !r.1.allowed then (.err 429, st1)
    else if reported = "" ∨ reason = "" then (.err 400, st1)
    else if reporter = reported then (.err 400, st1)
    else
      let rec0 : RepRec :=
        { id := rid, reporterSessionId := reporter, reportedSessionId := reported,
          roomId := roomId, reason := reason }
      let st2 := { st1 with reports := st1.reports ++ [rec0],
                            sessCount := incSessCount st1.sessCount reported }
      let newCount := st2.counters reported + 1
      let st3 := { st2 with counters := fun k => if k = reported then newCount else st2.counters k }
      (.ok rid (decide (3 ≤ newCount)), st3)

end Api

/-!
Concrete stores used to evaluate the embedded operations at explicit inputs:
counterexamples and witnesses below run the definitions on these states.
-/

/-- An empty backend store: no sessions, empty queues, no matches. -/
def stA0 : Backend.St :=
  { sessions := fun _ => none
    queues := fun _ _ => []
    matchTable := []
    onlineCount := 0
    totalConnections := 0
    todayConnections := 0 }

/-- Session hash of a signal source currently mapped to room `R`. -/
def srcRec : Backend.SessRec := { socketId := "s1", matchId := some "R" }

/-- Session hash of a connected signal target that is in no room. -/
def tgtRec : Backend.SessRec := { socketId := "t2", matchId := none }

/-- Store with source `s` in room `R` and target `t` connected but roomless. -/
def sigSt : Backend.St :=
  { stA0 with sessions := fun k =>
      if k = "s" then some srcRec else if k = "t" then some tgtRec else none }

/-- Backend store whose `queue:casual:chat` holds 51 distinct entries, none
of which has a session hash: every one of them is stale for the scan. -/
def st51 : Backend.St :=
  { stA0 with queues := fun m t =>
      if m = "casual" ∧ t = "chat" then (List.range 51).map (fun n => "p" ++ toString n)
      else [] }

/-- Backend store with one live freelancer waiting in `queue:freelance:video`. -/
def stHire : Backend.St :=
  { stA0 with
    queues := fun m t => if m = "freelance" ∧ t = "video" then ["f"] else []
    sessions := fun k => if k = "f" then some { socketId := "fs", inQueue := true } else none }

/-- Match record between sessions `a` and `b`. -/
def mrecAB : Backend.MatchRec :=
  { participants := ["a", "b"], mode := "casual", connectionType := "chat",
    initiatorId := "b", createdAt := 5 }

/-- Session hash of a matched participant. -/
def sessAB : Backend.SessRec := { socketId := "x", matchId := some "R", peerId := some "y" }

/-- Backend store holding the match `R` between `a` and `b`. -/
def stM : Backend.St :=
  { stA0 with
    matchTable := [("R", mrecAB)]
    sessions := fun k => if k = "a" ∨ k = "b" then some sessAB else none }

/-- Session hash of a user whose current socket is `T2` while matched in `R`. -/
def sessT2 : Backend.SessRec :=
  { socketId := "T2", matchId := some "R", mode := "casual", connectionType := "chat" }

/-- Match record destroyed by a leave in the stale-socket scenario. -/
def mrecL : Backend.MatchRec :=
  { participants := ["A", "B"], mode := "casual", connectionType := "chat",
    initiatorId := "B", createdAt := 0 }

/-- Backend store for the stale-socket scenario: session `A` is bound to
socket `T2` and matched in room `R`. -/
def stL : Backend.St :=
  { stA0 with
    sessions := fun k => if k = "A" then some sessT2 else none
    matchTable := [("R", mrecL)] }

/-- Queue-manager store with one live session `s1` waiting in
`queue:hire:video`. -/
def qmHireSt : QM.StB :=
  { QM.emptyB with
    queues := fun k => if k = (QM.ModeB.hire, QM.CTypeB.video) then ["s1"] else []
    sessions := fun k => if k = "s1" then some {} else none }

/-- Room record of the stale-socket tab-swap scenario. -/
def qmRoomR : QM.RoomB :=
  { mode := QM.ModeB.casual, ctype := QM.CTypeB.video, participants := ["A", "B"],
    initiatorId := "B", createdAt := 0 }

/-- Queue-manager store where session `A` (whose current transport is `T2`)
shares room `R` with `B`. -/
def qmTabSt : QM.StB :=
  { QM.emptyB with
    sessions := fun k =>
      if k = "A" then some { socketId := some "T2" }
      else if k = "B" then some {} else none
    rooms := fun k => if k = "R" then some qmRoomR else none
    sessionRoom := fun k => if k = "A" ∨ k = "B" then some "R" else none }

/-- Queue-manager store reached by creating session `a` and joining it to the
casual/video queue: used to witness the queue-exclusivity invariant. -/
def qmReachedSt : QM.StB :=
  QM.stepB (.join "a" "r1" .casual .video 0) (QM.stepB (.mkSession "a") QM.emptyB)

/-- Empty rate-limit table and session list for the init route. -/
def initSt0 : Api.InitSt := { rl := fun _ => none, sessions := [] }

/-- Init-route state in which address `ip` already has ten issuances in the
current window. -/
def initSt10 : Api.InitSt :=
  { rl := fun k => if k = "session-init:ip" then some { count := 10, resetAt := 60000 } else none
    sessions := [] }

/-- Reports-route state where target `x` has one prior report in 24 h. -/
def repSt1 : Api.RepSt :=
  { rl := fun _ => none
    counters := fun k => if k = "x" then 1 else 0
    sessCount := fun _ => none
    reports := [] }

/-- Reports-route state where target `x` has two prior reports in 24 h. -/
def repSt2 : Api.RepSt :=
  { rl := fun _ => none
    counters := fun k => if k = "x" then 2 else 0
    sessCount := fun _ => none
    reports := [] }

/-- Queue-manager store reached by creating session `a`, joining it to
`queue:hire:video`, and then joining it to `queue:casual:chat`: because the
withdraw sweep of `removeFromQueue` never visits the hire queue, the second
join leaves `a` in both queues. -/
def qmTwoQueueSt : QM.StB :=
  QM.stepB (.join "a" "r2" .casual .chat 1)
    (QM.stepB (.join "a" "r1" .hire .video 0)
      (QM.stepB (.mkSession "a") QM.emptyB))

/-- Runs a list of `(now, sessionId, token)` init requests from one address
through `POST /api/session/init`, threading the store. -/
def runInitRequests (ip : String) : List (Nat × String × String) → Api.InitSt → Api.InitSt
  | [], st => st
  | (now, sid, tok) :: rest, st =>
    runInitRequests ip rest (Api.sessionInitPOST ip now sid tok st).2

/-- Request trace of one address: one request at t = 0 ms anchoring the
limiter window, nine at t = 55000 ms (filling the window to its limit of
ten), and nine at t = 60001..60009 ms, just after the window reset. -/
def c6Trace : List (Nat × String × String) :=
  (0, "a0", "t") ::
    ((List.range 9).map (fun n => (55000, "b" ++ toString n, "t")) ++
     (List.range 9).map (fun n => (60001 + n, "c" ++ toString n, "t")))

/-- Store after serving the whole `c6Trace` from the empty store: each of
its 19 requests is admitted, so 19 session records exist. -/
def c6PriorSt : Api.InitSt := runInitRequests "ip" c6Trace initSt0

/-- Queue-exclusivity invariant of the queue-manager store: every session
sits in at most one `(intent, medium)` queue, at most once, and the queues
outside the withdraw sweep are empty. -/
def QM.InvB (st : QM.StB) : Prop :=
  (∀ s k1 k2, s ∈ st.queues k1 → s ∈ st.queues k2 → k1 = k2) ∧
  (∀ s k, (st.queues k).count s ≤ 1) ∧
  (∀ k, k ∉ QM.sweepKeys → st.queues k = [])

namespace Backend

/-- The scan inspects at most one entry per unit of fuel. -/
theorem findLoop_evals_le (sess : String → Option SessRec) (self : String) :
    ∀ (fuel : Nat) (q : List String) (i evals : Nat),
      (findLoop sess self fuel q i evals).2.2 ≤ evals + fuel := by
  intro fuel
  induction fuel with
  | zero => intro q i evals; simp [findLoop]
  | succ n ih =>
    intro q i evals
    simp only [findLoop]
    split
    · split
      · exact le_trans (ih q (i + 1) (evals + 1)) (by omega)
      · split
        · exact le_trans (ih _ i (evals + 1)) (by omega)
        · simp
    · simp

/-- A peer the scan returns was a member of the scanned queue and is not the
caller. -/
theorem findLoop_found_mem (sess : String → Option SessRec) (self : String) :
    ∀ (fuel : Nat) (q : List String) (i evals : Nat) (p : String),
      (findLoop sess self fuel q i evals).1 = some p → p ∈ q ∧ p ≠ self := by
  intro fuel
  induction fuel with
  | zero => intro q i evals p h; simp [findLoop] at h
  | succ n ih =>
    intro q i evals p h
    simp only [findLoop] at h
    split at h
    · rename_i hlt
      split at h
      · exact (ih q (i + 1) (evals + 1) p h)
      · rename_i hself
        split at h
        · rcases ih _ i (evals + 1) p h with ⟨hm, hne⟩
          exact ⟨List.mem_of_mem_erase hm, hne⟩
        · simp at h
          subst h
          exact ⟨List.getElem_mem _, hself⟩
    · simp at h

/-- Deleting a key from the association list makes its lookup fail. -/
theorem lookup_filter_out (mid : String) (l : List (String × MatchRec)) :
    (l.filter (fun e => !(e.1 == mid))).lookup mid = none := by
  induction l with
  | nil => rfl
  | cons a tl ih =>
    by_cases ha : a.1 = mid
    · simp [List.filter, ha, ih]
    · have hb : (a.1 == mid) = false := beq_false_of_ne ha
      have hb2 : (mid == a.1) = false := beq_false_of_ne (fun hh => ha hh.symm)
      simp [List.filter, hb, List.lookup, hb2, ih]

/-- The participant fold of `destroyMatch` does not touch the match table. -/
theorem foldl_hDel_matchTable (l : List String) (st : St) :
    (l.foldl hDelMatchFields st).matchTable = st.matchTable := by
  induction l generalizing st with
  | nil => rfl
  | cons a tl ih => simpa [hDelMatchFields] using ih (hDelMatchFields st a)

/-- Clearing the room fields twice is the same as clearing them once. -/
theorem clearRoomFields_idem (r : SessRec) :
    clearRoomFields (clearRoomFields r) = clearRoomFields r := rfl

/-- Effect of the participant fold of `destroyMatch` on each session hash. -/
theorem foldl_hDel_sessions (l : List String) (st : St) (p : String) :
    (l.foldl hDelMatchFields st).sessions p =
      if p ∈ l then (st.sessions p).map clearRoomFields else st.sessions p := by
  induction l generalizing st with
  | nil => simp
  | cons a tl ih =>
    simp only [List.foldl_cons, ih (hDelMatchFields st a)]
    by_cases hpl : p ∈ tl
    · simp only [hpl, if_true, List.mem_cons, or_true, if_true]
      by_cases hpa : p = a
      · subst hpa
        simp [hDelMatchFields, Option.map_map]
        cases st.sessions p <;> rfl
      · simp [hDelMatchFields, hpa]
    · by_cases hpa : p = a
      · subst hpa
        simp [hpl, hDelMatchFields]
      · simp [hpl, hpa, hDelMatchFields]

/-- After `destroyMatch` the match key either cannot be looked up any more,
or it was absent all along and the state is untouched. -/
theorem destroyMatch_lookup (mid : String) (st : St) :
    ((destroyMatch mid st).2).matchTable.lookup mid = none ∨
      (st.matchTable.lookup mid = none ∧ destroyMatch mid st = ([], st)) := by
  unfold destroyMatch
  cases h : st.matchTable.lookup mid with
  | none => exact Or.inr ⟨rfl, rfl⟩
  | some mr =>
    left
    simp only [foldl_hDel_matchTable]
    exact lookup_filter_out mid st.matchTable

end Backend

namespace Backend

/-- Characterization of the relay: a signal is emitted exactly when the
source's session hash maps to the given room and the target's session hash
holds a socket; the emitted event targets that socket and carries the
payload and the source identifier. -/
theorem handleSignal_char (sid roomId targetId : String) (n : Nat) (st : St) :
    handleSignal sid roomId targetId n st =
      if (getSess st sid).matchId = some roomId ∧ (getSess st targetId).socketId ≠ "" then
        some (.signalE (getSess st targetId).socketId n sid)
      else none := by
  unfold handleSignal
  by_cases h1 : (getSess st sid).matchId = some roomId
  · by_cases h2 : (getSess st targetId).socketId = ""
    · simp [h1, h2]
    · simp [h1, h2]
  · simp [h1]

/-- Destroying an absent match returns the empty list and the unchanged
state. -/
theorem destroyMatch_not_found (mid : String) (st : St)
    (h : st.matchTable.lookup mid = none) : destroyMatch mid st = ([], st) := by
  unfold destroyMatch
  rw [h]

end Backend

/-- C1: the relay delivers a signal exactly when the source session's room
mapping equals the given room and the target session has a socket bound; in
particular the target's own room membership is never consulted, and a signal
failing the source check is dropped.  (Amended from the claim that both the
source and the target must be authorized for the room.) -/
theorem c1_relay_authorization_amended (sid roomId targetId : String) (n : Nat)
    (st : Backend.St) :
    Backend.handleSignal sid roomId targetId n st =
      if (Backend.getSess st sid).matchId = some roomId ∧
          (Backend.getSess st targetId).socketId ≠ "" then
        some (.signalE (Backend.getSess st targetId).socketId n sid)
      else none :=
  Backend.handleSignal_char sid roomId targetId n st

/-- C1: counterexample to the claim as stated — in `sigSt` the source `s` is
authorized for room `R` but the target `t` has no room at all
(`SessionToRoom(t) ≠ R`), yet `handleSignal` delivers the envelope to `t`'s
socket. -/
theorem c1_relay_authorization_counterexample :
    Backend.handleSignal "s" "R" "t" 10 sigSt =
        some (.signalE "t2" 10 "s") ∧
      (Backend.getSess sigSt "t").matchId ≠ some "R" := by
  constructor
  · rfl
  · decide

/-- C5: amended — the relay enforces no payload size bound: any signal whose
source-authorization check passes and whose target has a socket is forwarded
whatever its payload size, including sizes beyond 16384 bytes; no
`PayloadTooLarge` rejection exists in the code. -/
theorem c5_payload_bound_amended (sid roomId targetId : String) (n : Nat)
    (st : Backend.St) (hn : 16384 < n)
    (h1 : (Backend.getSess st sid).matchId = some roomId)
    (h2 : (Backend.getSess st targetId).socketId ≠ "") :
    Backend.handleSignal sid roomId targetId n st =
      some (.signalE (Backend.getSess st targetId).socketId n sid) := by
  rw [Backend.handleSignal_char, if_pos ⟨h1, h2⟩]

/-- C5: witness — a 20000-byte payload is forwarded unchanged. -/
theorem c5_payload_bound_witness :
    Backend.handleSignal "s" "R" "t" 20000 sigSt = some (.signalE "t2" 20000 "s") :=
  c5_payload_bound_amended "s" "R" "t" 20000 sigSt (by decide) (by decide) (by decide)

/-- C5: counterexample to the claim as stated — a payload of 16 KiB + 1 byte
(16385 bytes) is not rejected: it is forwarded to the target. -/
theorem c5_payload_bound_counterexample :
    Backend.handleSignal "s" "R" "t" 16385 sigSt = some (.signalE "t2" 16385 "s") := by
  rfl

/-- C9: `destroyMatch` returns the prior participant list, deletes the match
record and clears both participants' room mappings; destroying a vanished
match returns an empty list leaving the state untouched, and a second
destroy of the same room changes nothing — `destroy(R); destroy(R)` equals a
single `destroy(R)`. -/
theorem c9_destroy_idempotent (mid : String) (st : Backend.St) :
    (Backend.destroyMatch mid (Backend.destroyMatch mid st).2 =
        ([], (Backend.destroyMatch mid st).2)) ∧
    (st.matchTable.lookup mid = none → Backend.destroyMatch mid st = ([], st)) ∧
    (∀ mr, st.matchTable.lookup mid = some mr →
      (Backend.destroyMatch mid st).1 = mr.participants ∧
      ((Backend.destroyMatch mid st).2).matchTable.lookup mid = none ∧
      ∀ p, p ∈ mr.participants →
        ((Backend.destroyMatch mid st).2).sessions p =
          (st.sessions p).map Backend.clearRoomFields) := by
  refine ⟨?_, ?_, ?_⟩
  · rcases Backend.destroyMatch_lookup mid st with h | ⟨h0, h⟩
    · exact Backend.destroyMatch_not_found mid _ h
    · rw [h]
      exact h
  · exact Backend.destroyMatch_not_found mid st
  · intro mr h
    refine ⟨?_, ?_, ?_⟩
    · unfold Backend.destroyMatch
      rw [h]
    · rcases Backend.destroyMatch_lookup mid st with h2 | ⟨h0, _⟩
      · exact h2
      · rw [h0] at h
        exact absurd h (by simp)
    · intro p hp
      unfold Backend.destroyMatch
      rw [h]
      simp only [Backend.foldl_hDel_sessions, hp, if_true]

/-- C9: witness — destroying match `R` in `stM` returns the participants
`[a, b]`, removes the match record, and clears `a`'s room mapping. -/
theorem c9_destroy_idempotent_witness :
    (Backend.destroyMatch "R" stM).1 = ["a", "b"] ∧
    ((Backend.destroyMatch "R" stM).2).matchTable.lookup "R" = none ∧
    ((Backend.destroyMatch "R" stM).2).sessions "a" =
      (stM.sessions "a").map Backend.clearRoomFields := by
  have h := (c9_destroy_idempotent "R" stM).2.2 mrecAB (by decide)
  exact ⟨h.1, h.2.1, h.2.2 "a" (by decide)⟩

/-- C10: amended — the backend `/api/stats` endpoint pads every headline
figure exactly as claimed: `online` is the true online count plus 247 (hence
never below 247), the totals carry the fixed bases 2847293 and 12847, each
`byMode` entry is the true queue total plus its per-mode constant, and only
the `realtime` sub-object reports the raw queue lengths.  (The App-Router
stats route computes `online` differently; see the counterexample.) -/
theorem c10_stats_padding_amended (st : Backend.St) :
    (Backend.statsGET st).online = st.onlineCount + 247 ∧
    247 ≤ (Backend.statsGET st).online ∧
    (Backend.statsGET st).totalConnections = 2847293 + st.totalConnections ∧
    (Backend.statsGET st).todayConnections = 12847 + st.todayConnections ∧
    (Backend.statsGET st).byMode.casual = Backend.queueTotal st "casual" + 50 ∧
    (Backend.statsGET st).byMode.pitch = Backend.queueTotal st "pitch" + 25 ∧
    (Backend.statsGET st).byMode.collab = Backend.queueTotal st "collab" + 35 ∧
    (Backend.statsGET st).byMode.hire = Backend.queueTotal st "hire" + 15 ∧
    (Backend.statsGET st).byMode.freelance = Backend.queueTotal st "freelance" + 20 ∧
    (Backend.statsGET st).byMode.review = Backend.queueTotal st "review" + 30 ∧
    (Backend.statsGET st).realtime.waitingByMode =
      { casual := Backend.queueTotal st "casual", pitch := Backend.queueTotal st "pitch",
        collab := Backend.queueTotal st "collab", hire := Backend.queueTotal st "hire",
        freelance := Backend.queueTotal st "freelance", review := Backend.queueTotal st "review" } ∧
    (Backend.statsGET st).realtime.totalWaiting =
      Backend.queueTotal st "casual" + Backend.queueTotal st "pitch" +
      Backend.queueTotal st "collab" + Backend.queueTotal st "hire" +
      Backend.queueTotal st "freelance" + Backend.queueTotal st "review" := by
  refine ⟨rfl, ?_, rfl, rfl, rfl, rfl, rfl, rfl, rfl, rfl, rfl, rfl⟩
  simp [Backend.statsGET]

/-- C10: counterexample to the claim as stated — the App-Router stats route's
`online` figure, with 100 active sessions and the least possible jitter,
is the raw 100: it is not the true count plus 247, and it is below 247. -/
theorem c10_stats_padding_counterexample :
    Backend.appStatsOnline 100 0 = 100 ∧
    Backend.appStatsOnline 100 0 ≠ 100 + 247 ∧
    Backend.appStatsOnline 100 0 < 247 := by
  decide

/-- C2: amended — the backend matcher draws the peer from the queue selected
by the pairing rule: whenever `findMatch` mints a match, its participants
are the caller and a session that was waiting in the
`(pairMode mode, connectionType)` queue, and the minted record carries the
target mode.  (The `lib/queue-manager.ts` joinQueue applies no such rule and
pops the caller's own queue for every intent; see the counterexample.) -/
theorem c2_pairing_rule_amended (sid mode ctype mid : String) (now : Nat)
    (st : Backend.St) (m : Backend.MatchRec)
    (h : (Backend.findMatch sid mode ctype mid now st).found = some m) :
    ∃ peer, m.participants = [peer, sid] ∧ peer ≠ sid ∧
      peer ∈ st.queues (Backend.pairMode mode) ctype ∧
      m.mode = Backend.pairMode mode := by
  simp only [Backend.findMatch] at h
  rcases hl : Backend.findLoop st.sessions sid
      (st.queues (Backend.pairMode mode) ctype).length
      (st.queues (Backend.pairMode mode) ctype) 0 0 with ⟨found, q1, evals⟩
  rw [hl] at h
  cases found with
  | none => simp at h
  | some peer =>
    simp at h
    rcases Backend.findLoop_found_mem st.sessions sid _ _ _ _ peer
        (by rw [hl]) with ⟨hm, hne⟩
    exact ⟨peer, by rw [← h], by simpa using hne, hm, by rw [← h]⟩

/-- C2: witness — a `hire` caller is matched against the `f` session waiting
in the freelance queue of `stHire`: the minted participants are
`[f, h]`, `f` comes from `queue:freelance:video`, and the stored mode is the
target mode `freelance`. -/
theorem c2_pairing_rule_witness :
    ∃ peer, (["f", "h"] : List String) = [peer, "h"] ∧ peer ≠ "h" ∧
      peer ∈ stHire.queues (Backend.pairMode "hire") "video" ∧
      ("freelance" : String) = Backend.pairMode "hire" :=
  c2_pairing_rule_amended "h" "hire" "video" "M" 0 stHire
    { participants := ["f", "h"], mode := "freelance", connectionType := "video",
      initiatorId := "h", createdAt := 0 } (by decide)

/-- C8: amended — the `findMatch` scan always terminates and inspects at most
as many entries as the target queue initially holds: the constant 50 bounds
only the scan index over retained entries, while each stale entry is removed
as it is discarded, so with more than 50 stale entries the scan inspects
more than 50 of them (see the counterexample); when the scan gives up, the
caller is enqueued in its own queue and `waiting` is returned. -/
theorem c8_scan_bound_amended (sock sid mode ctype mid : String) (now : Nat)
    (st : Backend.St) :
    (Backend.findMatch sid mode ctype mid now st).evals ≤
        (st.queues (Backend.pairMode mode) ctype).length ∧
    ((Backend.findMatch sid mode ctype mid now st).found = none →
      (Backend.handleJoinQueue sock sid mode ctype mid now st).resp = .waiting ∧
      sid ∈ (Backend.handleJoinQueue sock sid mode ctype mid now st).st.queues mode ctype) := by
  constructor
  · simp only [Backend.findMatch]
    rcases hl : Backend.findLoop st.sessions sid
        (st.queues (Backend.pairMode mode) ctype).length
        (st.queues (Backend.pairMode mode) ctype) 0 0 with ⟨found, q1, evals⟩
    have hb := Backend.findLoop_evals_le st.sessions sid
        (st.queues (Backend.pairMode mode) ctype).length
        (st.queues (Backend.pairMode mode) ctype) 0 0
    rw [hl] at hb
    cases found <;> simpa using hb
  · intro h
    simp only [Backend.handleJoinQueue, h]
    refine ⟨trivial, ?_⟩
    simp [Backend.addToQueue, Backend.updQueue, Backend.updSess]

/-- C8: witness — on the empty store the scan inspects no entries, gives up,
and the caller ends up waiting in its own queue. -/
theorem c8_scan_bound_witness :
    (Backend.findMatch "s" "casual" "chat" "m" 0 stA0).evals ≤
        (stA0.queues (Backend.pairMode "casual") "chat").length ∧
    ((Backend.handleJoinQueue "k1" "s" "casual" "chat" "m" 0 stA0).resp = .waiting ∧
      "s" ∈ (Backend.handleJoinQueue "k1" "s" "casual" "chat" "m" 0 stA0).st.queues "casual" "chat") :=
  ⟨(c8_scan_bound_amended "k1" "s" "casual" "chat" "m" 0 stA0).1,
   (c8_scan_bound_amended "k1" "s" "casual" "chat" "m" 0 stA0).2 (by decide)⟩

/-- C8: counterexample to the claim as stated — on `st51`, whose target queue
holds 51 stale entries, the scan inspects all 51 of them (each is removed as
it is discarded) before giving up: strictly more than the claimed bound of
50 evaluated entries. -/
theorem c8_scan_bound_counterexample :
    (Backend.findMatch "s" "casual" "chat" "m" 0 st51).evals = 51 ∧
    50 < (Backend.findMatch "s" "casual" "chat" "m" 0 st51).evals := by
  decide

/-- C3: counterexample to the claim as stated, in both implementations.
Backend gateway: `handleJoinQueue` does not withdraw the caller first, so
starting from the empty store two consecutive `join-queue` commands for
session `s` (both acknowledged with `waiting`) leave `s` twice in
`queue:casual:chat`.  Queue manager: the withdraw sweep of
`removeFromQueue` never visits the hire or freelance queues, so session `a`,
after `join(a, hire, video)` followed by `join(a, casual, chat)`, sits in
two different queues at once. -/
theorem c3_exclusivity_counterexample :
    (((Backend.handleJoinQueue "k1" "s" "casual" "chat" "m2" 1
        (Backend.handleJoinQueue "k1" "s" "casual" "chat" "m1" 0 stA0).st).st.queues
        "casual" "chat").count "s" = 2 ∧
      (Backend.handleJoinQueue "k1" "s" "casual" "chat" "m1" 0 stA0).resp = .waiting ∧
      (Backend.handleJoinQueue "k1" "s" "casual" "chat" "m2" 1
          (Backend.handleJoinQueue "k1" "s" "casual" "chat" "m1" 0 stA0).st).resp = .waiting) ∧
    ("a" ∈ qmTwoQueueSt.queues (QM.ModeB.hire, QM.CTypeB.video) ∧
      "a" ∈ qmTwoQueueSt.queues (QM.ModeB.casual, QM.CTypeB.chat) ∧
      ((QM.ModeB.hire, QM.CTypeB.video) : QM.KeyB) ≠ (QM.ModeB.casual, QM.CTypeB.chat)) := by
  decide

/-- C4: amended — in the backend gateway the stale-socket rule holds exactly
as claimed: a `leave` (and hence the `disconnect` path, which goes through
`handleLeave`) arriving from a socket different from the session's current,
non-empty socket binding leaves the whole store untouched and emits nothing.
(The `pages/api/socket/io.ts` gateway has no such guard; see the
counterexample.) -/
theorem c4_stale_socket_amended (sock sid rmid : String) (now : Nat) (st : Backend.St)
    (h1 : (Backend.getSess st sid).socketId ≠ "")
    (h2 : (Backend.getSess st sid).socketId ≠ sock) :
    Backend.handleLeave sock sid rmid now st = { st := st, emits := [] } := by
  unfold Backend.handleLeave
  rw [if_pos ⟨h1, h2⟩]

/-- C4: witness — in `stL`, session `A` is bound to socket `T2`; a leave
arriving from the superseded socket `T1` changes nothing and emits nothing. -/
theorem c4_stale_socket_witness :
    Backend.handleLeave "T1" "A" "m9" 7 stL = { st := stL, emits := [] } :=
  c4_stale_socket_amended "T1" "A" "m9" 7 stL (by decide) (by decide)

namespace QM

/-- The queue the pop loop leaves behind is a sublist of the input queue. -/
theorem joinLoop_sublist (sess : String → Option SessB) (self : String) :
    ∀ (q : List String) (attempts : Nat),
      List.Sublist ((joinLoop sess self q attempts).2) q := by
  intro q
  induction q with
  | nil =>
    intro attempts
    simp only [joinLoop]
    split <;> simp
  | cons p rest ih =>
    intro attempts
    simp only [joinLoop]
    split
    · exact List.Sublist.refl _
    · split
      · exact (ih attempts).trans (List.sublist_cons_self p rest)
      · split
        · exact (ih (attempts + 1)).trans (List.sublist_cons_self p rest)
        · exact List.sublist_cons_self p rest

/-- Filtering out one session only affects that session's counts. -/
theorem count_filter_out_self (sid s : String) (l : List String) :
    (l.filter (fun x => !(x == sid))).count s = if s = sid then 0 else l.count s := by
  induction l with
  | nil => simp
  | cons a tl ih =>
    by_cases ha : a = sid
    · subst ha
      simp only [List.filter, beq_self_eq_true, Bool.not_true, ih]
      by_cases hs : s = a
      · simp [hs]
      · simp [hs, List.count_cons, if_neg (fun hh => hs (by simpa using hh))]
    · have hb : (a == sid) = false := beq_false_of_ne ha
      simp only [List.filter, hb, Bool.not_false, List.count_cons, ih]
      by_cases hs : s = sid
      · simp [hs, if_neg (fun hh : a = sid => ha hh), beq_false_of_ne (fun hh : a = s => ha (hh.trans hs))]
      · simp [hs]

/-- Membership after filtering out one session. -/
theorem mem_filter_out_self (sid s : String) (l : List String) :
    s ∈ l.filter (fun x => !(x == sid)) ↔ s ∈ l ∧ s ≠ sid := by
  simp [List.mem_filter]

/-- Each queue the withdraw sweep leaves behind is either untouched or
has the withdrawn session filtered out. -/
theorem rfqGo_cases (sid : String) :
    ∀ (ks : List KeyB) (q : KeyB → List String) (k : KeyB),
      rfqGo sid ks q k = q k ∨
      rfqGo sid ks q k = (q k).filter (fun x => !(x == sid)) := by
  intro ks
  induction ks with
  | nil => intro q k; exact Or.inl rfl
  | cons k0 rest ih =>
    intro q k
    simp only [rfqGo]
    split
    · by_cases hk : k = k0
      · subst hk; simp
      · simp [hk]
    · exact ih q k

/-- If the session sits in at most one queue, and every queue containing it
is listed in the sweep, the sweep removes it everywhere. -/
theorem rfqGo_self_not_mem (sid : String) :
    ∀ (ks : List KeyB) (q : KeyB → List String),
      (∀ k, sid ∈ q k → k ∈ ks) →
      (∀ k1 k2, sid ∈ q k1 → sid ∈ q k2 → k1 = k2) →
      ∀ k, sid ∉ rfqGo sid ks q k := by
  intro ks
  induction ks with
  | nil =>
    intro q hcover _ k hmem
    exact absurd (hcover k hmem) (List.not_mem_nil k)
  | cons k0 rest ih =>
    intro q hcover huniq k
    simp only [rfqGo]
    split
    · rename_i hk0
      by_cases hk : k = k0
      · subst hk
        simp [mem_filter_out_self]
      · simp only [if_neg hk]
        intro hmem
        exact hk (huniq k k0 hmem hk0)
    · rename_i hk0
      refine ih q (fun k2 hm => ?_) huniq k
      rcases List.mem_cons.mp (hcover k2 hm) with h | h
      · exact absurd (h ▸ hm) hk0
      · exact h
end QM

namespace QM

/-- The invariant only depends on the queues. -/
theorem invB_of_queues_eq (st' st : StB) (h : st'.queues = st.queues)
    (hinv : InvB st) : InvB st' := by
  unfold InvB at *
  rw [h]
  exact hinv

/-- The invariant is preserved by any step that only shrinks queues. -/
theorem invB_of_le (st' st : StB)
    (hmem : ∀ s k, s ∈ st'.queues k → s ∈ st.queues k)
    (hcount : ∀ s k, (st'.queues k).count s ≤ (st.queues k).count s)
    (hinv : InvB st) : InvB st' := by
  refine ⟨?_, ?_, ?_⟩
  · intro s k1 k2 h1 h2
    exact hinv.1 s k1 k2 (hmem s k1 h1) (hmem s k2 h2)
  · intro s k
    exact le_trans (hcount s k) (hinv.2.1 s k)
  · intro k hk
    refine List.eq_nil_iff_forall_not_mem.mpr (fun s hs => ?_)
    have := hmem s k hs
    rw [hinv.2.2 k hk] at this
    exact absurd this (List.not_mem_nil s)

/-- The operation `leaveRoom` never touches the queues. -/
theorem leaveRoom_queues (sid : String) (st : StB) :
    ((leaveRoom sid st).2).queues = st.queues := by
  unfold leaveRoom
  split
  · rfl
  · split
    · rfl
    · rfl

/-- The withdraw sweep preserves the invariant. -/
theorem removeFromQueue_invB (sid : String) (st : StB) (hinv : InvB st) :
    InvB (removeFromQueue sid st) := by
  refine invB_of_le _ st (fun s k h => ?_) (fun s k => ?_) hinv
  · simp only [removeFromQueue] at h
    rcases rfqGo_cases sid sweepKeys st.queues k with hc | hc
    · rwa [hc] at h
    · rw [hc] at h
      exact ((mem_filter_out_self sid s _).mp h).1
  · simp only [removeFromQueue]
    rcases rfqGo_cases sid sweepKeys st.queues k with hc | hc
    · rw [hc]
    · rw [hc, count_filter_out_self]
      split
      · exact Nat.zero_le _
      · exact le_refl _

/-- With the invariant in force, the withdraw sweep removes the session from
every queue. -/
theorem removeFromQueue_not_mem (sid : String) (st : StB) (hinv : InvB st) :
    ∀ k, sid ∉ (removeFromQueue sid st).queues k := by
  refine rfqGo_self_not_mem sid sweepKeys st.queues (fun k hm => ?_) (hinv.1 sid)
  by_contra hk
  rw [hinv.2.2 k hk] at hm
  exact absurd hm (List.not_mem_nil sid)

/-- The operation `joinQueue` preserves the invariant when the intent is one the withdraw
sweep covers. -/
theorem joinQueue_invB (sid : String) (m : ModeB) (t : CTypeB) (rid : String)
    (now : Nat) (st : StB) (hk : (m, t) ∈ sweepKeys) (hinv : InvB st) :
    InvB ((joinQueue sid m t rid now st).2) := by
  have hinv1 := removeFromQueue_invB sid st hinv
  have habs := removeFromQueue_not_mem sid st hinv
  set st1 := removeFromQueue sid st with hst1
  simp only [joinQueue, ← hst1]
  rcases hl : joinLoop st1.sessions sid (st1.queues (m, t)) 0 with ⟨res, q1⟩
  have hsub : List.Sublist q1 (st1.queues (m, t)) := by
    have h2 := joinLoop_sublist st1.sessions sid (st1.queues (m, t)) 0
    rw [hl] at h2
    exact h2
  cases res with
  | some peer =>
    refine invB_of_le _ st1 (fun s k h => ?_) (fun s k => ?_) hinv1
    · dsimp only at h
      by_cases hkk : k = (m, t)
      · subst hkk
        rw [if_pos rfl] at h
        exact hsub.subset h
      · rwa [if_neg hkk] at h
    · dsimp only
      by_cases hkk : k = (m, t)
      · subst hkk
        rw [if_pos rfl]
        exact hsub.count_le s
      · rw [if_neg hkk]
  | none =>
    have hq1sid : q1.count sid = 0 := by
      refine Nat.le_zero.mp ?_
      calc q1.count sid ≤ (st1.queues (m, t)).count sid := hsub.count_le sid
        _ = 0 := List.count_eq_zero.mpr (habs (m, t))
    refine ⟨?_, ?_, ?_⟩
    · intro s k1 k2 h1 h2
      dsimp only at h1 h2 ⊢
      by_cases hk1 : k1 = (m, t) <;> by_cases hk2 : k2 = (m, t)
      · rw [hk1, hk2]
      · subst hk1
        rw [if_pos rfl] at h1
        rw [if_neg hk2] at h2
        rcases List.mem_append.mp h1 with hq | hs
        · exact absurd (hinv1.1 s (m, t) k2 (hsub.subset hq) h2).symm hk2
        · have hssid : s = sid := by simpa using hs
          exact absurd (hssid ▸ h2) (habs k2)
      · subst hk2
        rw [if_neg hk1] at h1
        rw [if_pos rfl] at h2
        rcases List.mem_append.mp h2 with hq | hs
        · exact absurd (hinv1.1 s k1 (m, t) h1 (hsub.subset hq)) hk1
        · have hssid : s = sid := by simpa using hs
          exact absurd (hssid ▸ h1) (habs k1)
      · rw [if_neg hk1] at h1
        rw [if_neg hk2] at h2
        exact hinv1.1 s k1 k2 h1 h2
    · intro s k
      dsimp only
      by_cases hkk : k = (m, t)
      · subst hkk
        rw [if_pos rfl, List.count_append]
        by_cases hs : s = sid
        · subst hs
          simp [hq1sid, List.count_cons]
        · have h1 : q1.count s ≤ 1 := le_trans (hsub.count_le s) (hinv1.2.1 s (m, t))
          have h2 : List.count s [sid] = 0 := by
            simp [List.count_cons, beq_false_of_ne (Ne.symm hs)]
          omega
      · rw [if_neg hkk]
        exact hinv1.2.1 s k
    · intro k hks
      dsimp only
      rw [if_neg (fun hh : k = (m, t) => hks (hh ▸ hk))]
      exact hinv1.2.2 k hks

/-- Every reachable store satisfies the queue-exclusivity invariant. -/
theorem reachB_invB (st : StB) (h : ReachB st) : InvB st := by
  induction h with
  | init =>
    refine ⟨?_, ?_, ?_⟩
    · intro s k1 k2 h1 _
      exact absurd h1 (List.not_mem_nil s)
    · intro s k
      simp [emptyB]
    · intro k _
      rfl
  | step op st0 hop _ ih =>
    cases op with
    | mkSession sid => exact invB_of_queues_eq _ st0 rfl ih
    | join sid rid m t now => exact joinQueue_invB sid m t rid now st0 hop ih
    | withdraw sid => exact removeFromQueue_invB sid st0 ih
    | leave sid => exact invB_of_queues_eq _ st0 (leaveRoom_queues sid st0) ih

end QM

/-- C3: amended — pairing exclusivity holds for the queue-manager
implementation exactly on the intents its withdraw sweep covers (casual,
pitch, collab, hiring, review): in every store reachable by sequences of
session creation, join-queue restricted to those intents, withdraw, and
leave/disconnect, each session appears in at most one `(intent, medium)`
queue and at most once in that queue.  The restriction is necessary, not a
convenience: the sweep omits the hire and freelance queues, so a hire join
followed by a swept-intent join leaves the session in two queues, and the
backend gateway's `handleJoinQueue` enqueues without withdrawing at all;
the counterexample exhibits both violations. -/
theorem c3_pairing_exclusivity_amended (st : QM.StB) (h : QM.ReachB st) (s : String) :
    (∀ k1 k2, s ∈ st.queues k1 → s ∈ st.queues k2 → k1 = k2) ∧
    (∀ k, (st.queues k).count s ≤ 1) := by
  have hinv := QM.reachB_invB st h
  exact ⟨hinv.1 s, fun k => hinv.2.1 s k⟩

/-- C3: witness — in the store reached by creating session `a` and joining
it to the casual/video queue, `a` appears at most once in that queue. -/
theorem c3_pairing_exclusivity_witness :
    (qmReachedSt.queues (QM.ModeB.casual, QM.CTypeB.video)).count "a" ≤ 1 :=
  (c3_pairing_exclusivity_amended qmReachedSt
      (QM.ReachB.step _ _
        (show (QM.ModeB.casual, QM.CTypeB.video) ∈ QM.sweepKeys by decide)
        (QM.ReachB.step (.mkSession "a") QM.emptyB trivial QM.ReachB.init)) "a").2
    (QM.ModeB.casual, QM.CTypeB.video)

/-- C2: counterexample to the claim as stated — in the queue-manager
implementation two `hire` enqueues match each other: session `s1` waits in
`queue:hire:video`, and a second `joinQueue` with intent `hire` pops it and
mints a room whose two participants both came from the `hire` queue. -/
theorem c2_pairing_rule_counterexample :
    (QM.joinQueue "s2" QM.ModeB.hire QM.CTypeB.video "R" 0 qmHireSt).1 =
        QM.MatchResB.matched "R" "s1" true ∧
    ((QM.joinQueue "s2" QM.ModeB.hire QM.CTypeB.video "R" 0 qmHireSt).2.rooms "R") =
        some { mode := QM.ModeB.hire, ctype := QM.CTypeB.video,
               participants := ["s1", "s2"], initiatorId := "s2", createdAt := 0 } := by
  decide

/-- C4: counterexample to the claim as stated — in the
`pages/api/socket/io.ts` gateway the disconnect handler ignores the socket
identity: session `A`'s current transport is `T2`, yet the late disconnect
of the superseded transport `T1` still destroys `A`'s room `R`, so the
stale event is not a no-op. -/
theorem c4_stale_socket_counterexample :
    qmTabSt.sessions "A" = some { socketId := some "T2" } ∧
    qmTabSt.rooms "R" = some qmRoomR ∧
    "T1" ≠ "T2" ∧
    (QM.ioDisconnect "T1" "A" qmTabSt).rooms "R" = none ∧
    (QM.ioDisconnect "T1" "A" qmTabSt).sessionRoom "A" = none := by
  refine ⟨rfl, rfl, by decide, rfl, rfl⟩

/-- C6: amended — the init route's limiter counts requests in a fixed 60 s
window anchored at the window's first request, not in the sliding past
minute: the k-th request of a window creates exactly one new session record
and answers with the session identifier, the token and the 86400 s expiry
iff k is at most ten, and answers 429 RateLimited creating no session
otherwise.  Because the window is fixed, a burst straddling a window reset
is served even while the address has well over ten issuances in its past
60 seconds; see the counterexample. -/
theorem c6_session_init_rate_limit (ip sid tok : String) (now : Nat) (st : Api.InitSt) :
    ((Api.rlWindowEntry Api.sessionInitLimit (st.rl ("session-init:" ++ ip)) now).count + 1 ≤ 10 →
      (Api.sessionInitPOST ip now sid tok st).1 = .ok sid tok 86400 ∧
      (Api.sessionInitPOST ip now sid tok st).2.sessions =
        st.sessions ++ [Api.createSessionRec sid now]) ∧
    (10 < (Api.rlWindowEntry Api.sessionInitLimit (st.rl ("session-init:" ++ ip)) now).count + 1 →
      (Api.sessionInitPOST ip now sid tok st).1 = .rateLimited 429 ∧
      (Api.sessionInitPOST ip now sid tok st).2.sessions = st.sessions) := by
  constructor
  · intro h
    have hb : (Api.checkRateLimit ("session-init:" ++ ip) now Api.sessionInitLimit st.rl).1.allowed
        = true := decide_eq_true h
    simp only [Api.sessionInitPOST, hb]
    exact ⟨rfl, rfl⟩
  · intro h
    have hb : (Api.checkRateLimit ("session-init:" ++ ip) now Api.sessionInitLimit st.rl).1.allowed
        = false := by
      simp only [Api.checkRateLimit]
      rw [decide_eq_false_iff_not]
      simp only [Api.sessionInitLimit] at h ⊢
      omega
    simp only [Api.sessionInitPOST, hb]
    exact ⟨rfl, rfl⟩

/-- C6: witness — on a fresh table the first request from an address is
served and stores one session; an address with ten issuances already in the
window gets 429 and no session is stored. -/
theorem c6_session_init_rate_limit_witness :
    ((Api.sessionInitPOST "1.2.3.4" 0 "s1" "t1" initSt0).1 = .ok "s1" "t1" 86400 ∧
      (Api.sessionInitPOST "1.2.3.4" 0 "s1" "t1" initSt0).2.sessions =
        [Api.createSessionRec "s1" 0]) ∧
    ((Api.sessionInitPOST "ip" 5 "s2" "t2" initSt10).1 = .rateLimited 429 ∧
      (Api.sessionInitPOST "ip" 5 "s2" "t2" initSt10).2.sessions = []) :=
  ⟨(c6_session_init_rate_limit "1.2.3.4" "s1" "t1" 0 initSt0).1 (by decide),
   (c6_session_init_rate_limit "ip" "s2" "t2" 5 initSt10).2 (by decide)⟩

set_option maxRecDepth 8192 in
/-- C6: counterexample to the claim as stated — one request at t = 0 ms,
nine at t = 55000 ms and nine at t = 60001..60009 ms are all served (19
sessions exist); the next request at t = 60010 ms is also served and
creates a 20th session, although at that moment the address has 18
issuances inside its past minute (createdAt in 60010 − 60000 < c ≤ 60010):
the claim mandates RateLimited and no session once ten issuances per minute
are exceeded. -/
theorem c6_session_init_rate_limit_counterexample :
    (Api.sessionInitPOST "ip" 60010 "b9" "t" c6PriorSt).1 = .ok "b9" "t" 86400 ∧
    (Api.sessionInitPOST "ip" 60010 "b9" "t" c6PriorSt).2.sessions.length = 20 ∧
    10 < (c6PriorSt.sessions.filter
        (fun s => decide (60010 - 60000 < s.createdAt ∧ s.createdAt ≤ 60010))).length := by
  decide

/-- C7: every accepted report against a target increments the target's
24-hour report counter by one, and the response flags
`shouldAutoDisconnect` exactly when the incremented counter has reached the
threshold 3 — so a target at 2 after the report is not flagged and one at 3
is. -/
theorem c7_report_auto_disconnect (reporter reported reason roomId : String)
    (now : Nat) (rid : String) (st : Api.RepSt)
    (hrl : (Api.checkRateLimit ("report:" ++ reporter) now Api.reportLimit st.rl).1.allowed = true)
    (hrep : reported ≠ "") (hreason : reason ≠ "") (hself : reporter ≠ reported) :
    (Api.reportsPOST (some reporter) none reported reason roomId now rid st).2.counters reported
        = st.counters reported + 1 ∧
    (Api.reportsPOST (some reporter) none reported reason roomId now rid st).1
        = .ok rid (decide (3 ≤ st.counters reported + 1)) := by
  have hne : ¬(reported = "" ∨ reason = "") := fun hh => hh.elim hrep hreason
  constructor
  · simp [Api.reportsPOST, Option.orElse, hrl, hne, hself]
  · simp [Api.reportsPOST, Option.orElse, hrl, hne, hself]

/-- C7: witness — a report against a target with one prior report answers
`shouldAutoDisconnect = false` (counter now 2); against a target with two
prior reports it answers `true` (counter now 3); both bump the counter. -/
theorem c7_report_auto_disconnect_witness :
    ((Api.reportsPOST (some "rep") none "x" "spam" "R" 0 "r1" repSt1).2.counters "x" = 2 ∧
      (Api.reportsPOST (some "rep") none "x" "spam" "R" 0 "r1" repSt1).1 = .ok "r1" false) ∧
    ((Api.reportsPOST (some "rep") none "x" "spam" "R" 0 "r2" repSt2).2.counters "x" = 3 ∧
      (Api.reportsPOST (some "rep") none "x" "spam" "R" 0 "r2" repSt2).1 = .ok "r2" true) := by
  have h1 := c7_report_auto_disconnect "rep" "x" "spam" "R" 0 "r1" repSt1
    (by decide) (by decide) (by decide) (by decide)
  have h2 := c7_report_auto_disconnect "rep" "x" "spam" "R" 0 "r2" repSt2
    (by decide) (by decide) (by decide) (by decide)
  exact ⟨⟨h1.1, h1.2⟩, ⟨h2.1, h2.2⟩⟩
